import Mathlib

/-!
Shallow embedding of the bytehide-shield-js-cli repository.

The JavaScript sources embedded here are:
  - src/utils/config.js   (DEFAULT_CONFIG, extractTokenFromConfig, getToken, loadConfig)
  - src/utils/obfuscate.js (generateWatermark, getFriendlyErrorMessage,
                            callBytehideShieldAPI, isAlreadyObfuscated, addBOM,
                            getSourceMapPath, getSymbolsPath, obfuscateFile)
  - src/utils/files.js    (createBackup, readFile, writeFile as effects)
  - the protect command   (validateOutputOptions, getOutputPath, protect)

Randomness (crypto.randomBytes) is modelled by passing the generated hex
identifiers as explicit parameters.  Network and filesystem behaviour is
modelled by passing the HTTP response / file contents as inputs, and by
recording every side effect in an explicit effect trace.
-/

/-- JavaScript truthiness of an optional string value (`undefined`/`null` and
the empty string are falsy, every other string is truthy). -/
def jsTruthyStr (v : Option String) : Bool :=
  match v with
  | none => false
  | some s => !s.data.isEmpty

/-- JavaScript values as far as this CLI manipulates them inside configuration
objects: `undefined`, `null`, strings and booleans.  (Numbers and nested
objects can appear in user configs but no embedded code path inspects them,
so they are outside the model.) -/
inductive JSVal where
  | undefinedVal
  | null
  | str (s : String)
  | boolean (b : Bool)
  deriving DecidableEq, Repr

/-- JavaScript truthiness of a `JSVal`. -/
def jsTruthyVal (v : JSVal) : Bool :=
  match v with
  | .undefinedVal => false
  | .null => false
  | .str s => !s.data.isEmpty
  | .boolean b => b

/-- Coerce a `JSVal` to an optional string (used where the code stores a value
that is a string whenever present, such as the token fields). -/
def jsValToStrOpt (v : JSVal) : Option String :=
  match v with
  | .str s => some s
  | _ => none

/-- True when a configuration field holds a string or is absent (`undefined` /
`null`); booleans are the only modelled non-string values. -/
def tokenFieldStringLike (v : JSVal) : Bool :=
  match v with
  | .boolean _ => false
  | _ => true

/-- A JavaScript object, as a key/value association list.  Objects built by
`objSet` keep keys unique; parsed JSON objects are assumed to have unique keys
(JSON.parse keeps the last duplicate, yielding unique keys). -/
def JSObj := List (String × JSVal)

instance : DecidableEq JSObj := by
  unfold JSObj
  infer_instance

/-- Property read `o[k]`; `undefined` when the key is missing. -/
def objGet (o : JSObj) (k : String) : JSVal :=
  match o.find? (fun p => p.1 == k) with
  | some p => p.2
  | none => .undefinedVal

/-- Property write `o[k] = v` (removes any previous binding, appends the new
one, matching last-wins object-literal semantics). -/
def objSet (o : JSObj) (k : String) (v : JSVal) : JSObj :=
  o.filter (fun p => p.1 != k) ++ [(k, v)]

/-- Object spread `{...a, ...b}`: every binding of `b` overrides `a`. -/
def objMerge (a b : JSObj) : JSObj :=
  b.foldl (fun acc p => objSet acc p.1 p.2) a

/-- config.js: the `DEFAULT_CONFIG` constant. -/
def DEFAULT_CONFIG : JSObj :=
  [("controlFlowFlattening", JSVal.boolean true),
   ("debugProtection", JSVal.boolean false),
   ("devtoolsBlocking", JSVal.boolean true)]

/-- config.js `loadConfig`, final merge step: given the parsed configuration
object, it destructures `{ ProjectToken, projectToken, ...obfuscationConfig }`
and returns `{ ...DEFAULT_CONFIG, ...obfuscationConfig, ProjectToken,
projectToken }`.  (File discovery, reading and JSON parsing produce the
`config` argument; their failure modes are run-level fatal errors and are not
needed by the claims.) -/
def loadConfigResult (config : JSObj) : JSObj :=
  let pTok := objGet config "ProjectToken"
  let pTok2 := objGet config "projectToken"
  let obfuscationConfig :=
    config.filter (fun p => p.1 != "ProjectToken" && p.1 != "projectToken")
  objSet (objSet (objMerge DEFAULT_CONFIG obfuscationConfig) "ProjectToken" pTok)
    "projectToken" pTok2

/-- JSON.stringify serializes an object key exactly when its value is not
`undefined`; this tests whether key `k` appears in the serialized form. -/
def hasStringifiedKey (o : JSObj) (k : String) : Bool :=
  (o.filter (fun p => p.2 != JSVal.undefinedVal)).any (fun p => p.1 == k)

/-- config.js `extractTokenFromConfig`:
`config.ProjectToken || config.projectToken || null`. -/
def extractTokenFromConfig (config : JSObj) : Option String :=
  if jsTruthyVal (objGet config "ProjectToken") then
    jsValToStrOpt (objGet config "ProjectToken")
  else if jsTruthyVal (objGet config "projectToken") then
    jsValToStrOpt (objGet config "projectToken")
  else none

/-- config.js `getToken`: CLI token, then `BYTEHIDE_SHIELD_TOKEN`, then
`BYTEHIDE_TOKEN`, then the config token fields.  The two environment
variables are passed as explicit parameters. -/
def getToken (cliToken envShieldToken envLegacyToken : Option String)
    (config : JSObj) : Option String :=
  if jsTruthyStr cliToken then cliToken
  else if jsTruthyStr envShieldToken then envShieldToken
  else if jsTruthyStr envLegacyToken then envLegacyToken
  else extractTokenFromConfig config

/-- Specification-side helper for C4: the first truthy (non-empty) value of a
candidate list, `none` when there is none. -/
def firstNonEmpty : List (Option String) → Option String
  | [] => none
  | v :: rest => if jsTruthyStr v then v else firstNonEmpty rest

/-- Lower-case hexadecimal digit, the character class `[a-f0-9]` of the
watermark regex. -/
def isLowerHexDigit (c : Char) : Bool :=
  (decide ('a' ≤ c) && decide (c ≤ 'f')) || (decide ('0' ≤ c) && decide (c ≤ '9'))

/-- The literal part of the watermark before the identifier. -/
def watermarkLead : List Char := "// _0xBHSHLD_".data

/-- The literal part of the watermark after the identifier. -/
def watermarkTail : List Char := "_marker".data

/-- One match of the regex `\/\/ _0xBHSHLD_[a-f0-9]{8}_marker` anchored at the
head of the character list: the lead literal, exactly 8 lower-case hex digits,
then the tail literal.  (Since the character after the counted class is `_`,
which is not a hex digit, the regex has no backtracking ambiguity and a match
at a position is exactly this predicate on the suffix.) -/
def watermarkAt (cs : List Char) : Bool :=
  watermarkLead.isPrefixOf cs
    && (((cs.drop 13).take 8).length == 8)
    && ((cs.drop 13).take 8).all isLowerHexDigit
    && watermarkTail.isPrefixOf ((cs.drop 13).drop 8)

/-- Unanchored regex search: does the watermark pattern match at some
position?  (`RegExp.prototype.test` without anchors.) -/
def containsWatermark : List Char → Bool
  | [] => false
  | c :: rest => watermarkAt (c :: rest) || containsWatermark rest

/-- obfuscate.js `isAlreadyObfuscated` (the spec calls it
`isAlreadyProtected`): `/\/\/ _0xBHSHLD_[a-f0-9]{8}_marker/.test(content)`. -/
def isAlreadyObfuscated (content : String) : Bool :=
  containsWatermark content.data

/-- Specification-side reading of C2 as written: the content *starts with*
the watermark pattern. -/
def startsWithWatermark (content : String) : Bool :=
  watermarkAt content.data

/-- Specification-side (amended) reading of C2: the content *contains* the
watermark pattern at some position. -/
def containsWatermarkAnywhere (content : String) : Bool :=
  (List.range (content.data.length + 1)).any (fun i => watermarkAt (content.data.drop i))

/-- obfuscate.js `generateWatermark`, with the random 4-byte hex identifier
(`crypto.randomBytes(4).toString('hex')`, always 8 lower-case hex characters)
passed as a parameter. -/
def generateWatermark (uniqueId : String) : String :=
  "// _0xBHSHLD_" ++ uniqueId ++ "_marker"

/-- obfuscate.js `getFriendlyErrorMessage`. -/
def getFriendlyErrorMessage (statusCode : Nat) : String :=
  match statusCode with
  | 400 => "Request contains invalid data. Check your configuration and source code."
  | 401 | 403 | 404 => "Authentication error. Verify that your project token is valid. For more information visit: docs.bytehide.com/platforms/javascript/products/shield/configuration-project-token"
  | 429 => "Protection skipped to avoid performance issues in final build. Reducing file size..."
  | 500 | 502 | 503 | 504 => "Service error. Please try again later."
  | _ => "Error processing the request. Check your configuration and try again."

/-- Suffix of a path after its last `/` — Node `path.basename` for the file
paths this CLI handles (Node additionally strips trailing slashes, which
cannot occur on the `.js`/`.mjs` file paths fed to these functions). -/
def afterLastSlash (p : List Char) : List Char :=
  (p.reverse.takeWhile (fun c => c != '/')).reverse

/-- Extension of a basename: from its last `.` to the end; empty when there is
no dot or when the only dot is the leading character (hidden files).  Matches
Node `path.extname` on every basename that is not made of dots only (such
basenames never end in `.js`/`.mjs`, the domain of this CLI). -/
def extnameOfBase (b : List Char) : List Char :=
  let afterDot := b.reverse.takeWhile (fun c => c != '.')
  if afterDot.length == b.length then []
  else if afterDot.length + 1 == b.length then []
  else '.' :: afterDot.reverse

/-- Node `path.extname` on a full path: the extension of its basename. -/
def extnameChars (p : List Char) : List Char :=
  extnameOfBase (afterLastSlash p)

/-- Prefix of a path before its last `/` — Node `path.dirname` (`.` when there
is no slash; trailing-slash stripping is not modelled, as above). -/
def dirnameStr (p : String) : String :=
  match p.data.reverse.dropWhile (fun c => c != '/') with
  | [] => "."
  | _ :: [] => "/"
  | _ :: rest => String.mk rest.reverse

/-- Node `path.join dir name` for the shapes used here; Node's `.`/`..`
segment normalization is not modelled (no embedded claim depends on it). -/
def pathJoin (a b : String) : String :=
  if a.data.isEmpty then b
  else if a.data.getLast? == some '/' then a ++ b
  else a ++ "/" ++ b

/-- JavaScript `String.prototype.replace` with a plain-string pattern:
replaces the first occurrence of `pat` with `rep`; the empty pattern matches
at position 0; no occurrence leaves the string unchanged.  (JavaScript's `$`
substitution sequences inside the replacement are not modelled; the
replacements built by this CLI are `outputExt + ext` and `outputExt` never
meaningfully contains `$` sequences.) -/
def replaceFirstChars : List Char → List Char → List Char → List Char
  | [], pat, rep => if pat.isPrefixOf [] then rep else []
  | c :: rest, pat, rep =>
    if pat.isPrefixOf (c :: rest) then rep ++ (c :: rest).drop pat.length
    else c :: replaceFirstChars rest pat rep

/-- Index of the first occurrence of `pat` inside `s` (specification-side
helper for C5). -/
def firstOccIdx : List Char → List Char → Option Nat
  | [], pat => if pat.isPrefixOf [] then some 0 else none
  | c :: rest, pat =>
    if pat.isPrefixOf (c :: rest) then some 0
    else (firstOccIdx rest pat).map (fun i => i + 1)

/-- Specification-side formula: insert `suffix` immediately before the first
occurrence of `ext` in `s` (unchanged when `ext` does not occur). -/
def specInsertBeforeFirstOcc (s ext suffix : List Char) : List Char :=
  match firstOccIdx s ext with
  | none => s
  | some i => s.take i ++ suffix ++ s.drop i

/-- Claim C5 as written: insert the suffix before the *final* extension of the
path (everything up to the extension, then the suffix, then the extension). -/
def specInsertBeforeLastExt (p suffix : String) : String :=
  let ext := extnameChars p.data
  String.mk ((p.data.take (p.data.length - ext.length)) ++ suffix.data ++ ext)

/-- The CLI options of the `protect` command that the embedded code reads
(part of commander's parsed options object). -/
structure CLIOptions where
  output : Option String
  outputDir : Option String
  outputExt : String
  dryRun : Bool
  backup : Bool
  sourceMap : Bool
  symbols : Bool
  sourceMapPath : Option String
  symbolsPath : Option String
  deriving DecidableEq, Repr

/-- The commander defaults of the `protect` command: no output overrides,
empty `--output-ext`, `--dry-run` false, backup enabled, no source map or
symbols. -/
def defaultProtectOptions : CLIOptions :=
  { output := none, outputDir := none, outputExt := "", dryRun := false,
    backup := true, sourceMap := false, symbols := false,
    sourceMapPath := none, symbolsPath := none }

/-- protect command `getOutputPath`: explicit `--output` wins; else with
`--output-dir` the basename gets the suffix spliced in by a first-occurrence
replace and is joined onto the directory; else the same replace is applied to
the whole input path. -/
def getOutputPath (inputFile : String) (opts : CLIOptions) : String :=
  if jsTruthyStr opts.output then opts.output.getD ""
  else
    let filename := afterLastSlash inputFile.data
    let ext := extnameChars inputFile.data
    if jsTruthyStr opts.outputDir then
      pathJoin (opts.outputDir.getD "")
        (String.mk (replaceFirstChars filename ext (opts.outputExt.data ++ ext)))
    else
      String.mk (replaceFirstChars inputFile.data ext (opts.outputExt.data ++ ext))

/-- protect command `validateOutputOptions`, with `process.exit(1)` modelled
as returning `false` and the `existsSync` probes passed in as `dirExists`. -/
def validateOutputOptions (nFiles : Nat) (opts : CLIOptions)
    (dirExists : String → Bool) : Bool :=
  if nFiles == 1 && jsTruthyStr opts.output then
    dirExists (dirnameStr (opts.output.getD ""))
  else if 1 < nFiles && jsTruthyStr opts.output then false
  else if 1 < nFiles && jsTruthyStr opts.sourceMapPath then false
  else if 1 < nFiles && jsTruthyStr opts.symbolsPath then false
  else if jsTruthyStr opts.outputDir then dirExists (opts.outputDir.getD "")
  else true

/-- The JSON body of the protection request built by `callBytehideShieldAPI`:
`{ code, obfuscationID, projectToken: token, config }`. -/
structure ProtectPayload where
  code : String
  obfuscationID : String
  projectToken : String
  config : JSObj
  deriving DecidableEq

/-- Build the protection request payload. -/
def mkProtectPayload (code obfuscationID token : String) (config : JSObj) :
    ProtectPayload :=
  { code := code, obfuscationID := obfuscationID, projectToken := token,
    config := config }

/-- The remote service's answer, as far as the client inspects it.
`ok output sourceMap symbols` is an HTTP 200 whose JSON body has those fields
(`output` is `none` when the field is absent).  `okBadJson` is an HTTP 200
whose body fails `JSON.parse` (with that parse-error message).
`httpError status errorField messageField` is a non-200 response:
`errorField = some e` models a JSON body whose `error` field is the truthy
value `e`; `errorField = none` models a body that is not JSON or whose
`error` field is absent or falsy.  `messageField` is the interpolation of
`result.message` (the text `undefined` when the field is absent).
`networkFailure` is a connection-level error. -/
inductive HTTPResponse where
  | ok (output : Option String) (sourceMap : Option String) (symbols : Option String)
  | okBadJson (parseMsg : String)
  | httpError (status : Nat) (errorField : Option String) (messageField : String)
  | networkFailure
  deriving DecidableEq, Repr

/-- The resolved value of `callBytehideShieldAPI`: watermarked output plus the
pass-through `sourceMap` and `symbols` fields (`null` mapped to `none`). -/
structure ObfResult where
  output : String
  sourceMap : Option String
  symbols : Option String
  deriving DecidableEq, Repr

/-- obfuscate.js `callBytehideShieldAPI`, result side: given the service
response and the fresh watermark identifier, either the resolved
`ObfResult` or the rejection message.  (The request payload it sends is
`mkProtectPayload code obfuscationID token config`; `obfuscateFile` below
records it in the effect trace.) -/
def callBytehideShieldAPI (resp : HTTPResponse) (watermarkId : String) :
    Except String ObfResult :=
  match resp with
  | .networkFailure =>
    .error "Connection error: Check your internet connection and try again."
  | .okBadJson parseMsg =>
    .error ("Error processing response: " ++ parseMsg)
  | .httpError status errorField messageField =>
    match errorField with
    | some e =>
      if e == "Internal Server Error" then
        .error ("Protection error: " ++ messageField)
      else
        .error ("Protection error: " ++ e)
    | none => .error (getFriendlyErrorMessage status)
  | .ok output sourceMap symbols =>
    if jsTruthyStr output then
      .ok { output := generateWatermark watermarkId ++ "\n" ++ output.getD "",
            sourceMap := sourceMap, symbols := symbols }
    else
      .error "No protected code received in response."

/-- Bytes written to a file: either UTF-8 text prefixed with the 3-byte BOM
`EF BB BF` (`addBOM` output) or plain UTF-8 text. -/
inductive FileBytes where
  | withBOM (text : String)
  | plain (text : String)
  deriving DecidableEq, Repr

/-- obfuscate.js `addBOM`: `Buffer.concat([EF BB BF, utf8 content])`. -/
def addBOM (content : String) : FileBytes :=
  .withBOM content

/-- obfuscate.js `getSourceMapPath`. -/
def getSourceMapPath (jsFilePath : String) (customPath : Option String) : String :=
  if jsTruthyStr customPath then customPath.getD "" else jsFilePath ++ ".map"

/-- obfuscate.js `getSymbolsPath`. -/
def getSymbolsPath (jsFilePath : String) (customPath : Option String) : String :=
  if jsTruthyStr customPath then customPath.getD "" else jsFilePath ++ ".symbols.json"

/-- A side effect of the run, in execution order. -/
inductive Effect where
  | fsRead (path : String)
  | fsWrite (path : String) (data : FileBytes)
  | fsMkdir (path : String)
  | fsCopy (src : String) (dst : String)
  | netProtect (payload : ProtectPayload)
  | netValidate (token : String)
  | consoleLine (line : String)
  deriving DecidableEq

/-- Effect classifiers. -/
def isNetworkEffect (e : Effect) : Bool :=
  match e with
  | .netProtect _ => true
  | .netValidate _ => true
  | _ => false

/-- True exactly for remote protection calls. -/
def isProtectCall (e : Effect) : Bool :=
  match e with
  | .netProtect _ => true
  | _ => false

/-- True for effects that create or modify filesystem entries. -/
def isWriteEffect (e : Effect) : Bool :=
  match e with
  | .fsWrite _ _ => true
  | .fsMkdir _ => true
  | .fsCopy _ _ => true
  | _ => false

/-- True for file reads. -/
def isReadEffect (e : Effect) : Bool :=
  match e with
  | .fsRead _ => true
  | _ => false

/-- True for console output. -/
def isConsoleEffect (e : Effect) : Bool :=
  match e with
  | .consoleLine _ => true
  | _ => false

/-- True when the effect writes file content at path `p` (a direct write or
the destination of a copy; directory creation makes no file). -/
def writesPath (e : Effect) (p : String) : Bool :=
  match e with
  | .fsWrite q _ => q == p
  | .fsCopy _ q => q == p
  | _ => false

/-- The argument object of `obfuscateFile` (its non-programmatic fields). -/
structure ObfArgs where
  filePath : String
  token : String
  config : JSObj
  outputPath : Option String
  outputExtension : String
  generateSourceMap : Bool
  saveSymbols : Bool
  sourceMapPath : Option String
  symbolsPath : Option String
  deriving DecidableEq

/-- obfuscate.js `obfuscateFile` on the non-programmatic path
(`_returnCodeOnly = false`): reads the file (its content is the `content`
parameter), rejects when the watermark guard fires, otherwise performs the
remote call (`resp` is the service's answer, `obfuscationID` and
`watermarkId` the two fresh random identifiers) and on success writes the
BOM-prefixed output, plus optional source-map and symbols files.  Returns the
final output path or the thrown error message, together with the effect
trace.  (The symbols cache is written after `JSON.stringify(·, null, 2)`;
the serialized value is carried opaquely as the raw string.) -/
def obfuscateFile (args : ObfArgs) (content : String) (resp : HTTPResponse)
    (obfuscationID watermarkId : String) : Except String String × List Effect :=
  let readEff : List Effect := [.fsRead args.filePath]
  if isAlreadyObfuscated content then
    (.error "The file has already been protected.", readEff)
  else
    let callEff :=
      Effect.netProtect (mkProtectPayload content obfuscationID args.token args.config)
    match callBytehideShieldAPI resp watermarkId with
    | .error msg => (.error msg, readEff ++ [callEff])
    | .ok result =>
      let finalOutputPath :=
        if jsTruthyStr args.outputPath then args.outputPath.getD ""
        else
          let ext := extnameChars args.filePath.data
          String.mk (replaceFirstChars args.filePath.data ext
            (args.outputExtension.data ++ ext))
      let writeEffs := [Effect.fsWrite finalOutputPath (addBOM result.output)]
      let mapEffs :=
        if args.generateSourceMap && jsTruthyStr result.sourceMap then
          [Effect.fsWrite (getSourceMapPath finalOutputPath args.sourceMapPath)
            (FileBytes.plain (result.sourceMap.getD ""))]
        else []
      let symEffs :=
        if args.saveSymbols && jsTruthyStr result.symbols then
          [Effect.fsWrite (getSymbolsPath finalOutputPath args.symbolsPath)
            (FileBytes.plain (result.symbols.getD ""))]
        else []
      (.ok finalOutputPath, readEff ++ [callEff] ++ writeEffs ++ mapEffs ++ symEffs)

/-- Per-file outcome recorded by the `protect` loop. -/
inductive Outcome where
  | success
  | skipped (reason : String)
  | failed (error : String)
  deriving DecidableEq, Repr

/-- One iteration of the `protect` command's per-file loop: missing file →
`Failed "File not found"`; otherwise create the output directory when absent
(`outputDirExistsB` is the `existsSync` probe of the planned output's
directory), write the `.backup` copy when `--backup` is on, then run
`obfuscateFile` with the planned output path; the distinguished
already-protected message becomes `Skipped "Already protected"`, any other
rejection becomes `Failed` with the message. -/
def processFile (file : String) (opts : CLIOptions) (token : String)
    (config : JSObj) (fileExistsB outputDirExistsB : Bool) (content : String)
    (resp : HTTPResponse) (obfuscationID watermarkId : String)
    (singleFile : Bool) : Outcome × List Effect :=
  let outputPath := getOutputPath file opts
  if !fileExistsB then (.failed "File not found", [])
  else
    let mkdirEffs : List Effect :=
      if outputDirExistsB then [] else [.fsMkdir (dirnameStr outputPath)]
    let backupEffs : List Effect :=
      if opts.backup then [.fsCopy file (file ++ ".backup")] else []
    let args : ObfArgs :=
      { filePath := file, token := token, config := config,
        outputPath := some outputPath, outputExtension := "",
        generateSourceMap := opts.sourceMap, saveSymbols := opts.symbols,
        sourceMapPath := if singleFile then opts.sourceMapPath else none,
        symbolsPath := if singleFile then opts.symbolsPath else none }
    match obfuscateFile args content resp obfuscationID watermarkId with
    | (.ok _, effs) => (.success, mkdirEffs ++ backupEffs ++ effs)
    | (.error msg, effs) =>
      if msg == "The file has already been protected." then
        (.skipped "Already protected", mkdirEffs ++ backupEffs ++ effs)
      else
        (.failed msg, mkdirEffs ++ backupEffs ++ effs)

/-- The `protect` command's sequential file loop: one outcome per file, with
the per-file environment (existence, content, response, fresh identifiers)
supplied by functions of the file path. -/
def protectLoop (files : List String) (opts : CLIOptions) (token : String)
    (config : JSObj) (fExists dirExists : String → Bool)
    (contentOf : String → String) (respOf : String → HTTPResponse)
    (oidOf wmOf : String → String) (singleFile : Bool) :
    List (String × Outcome) × List Effect :=
  match files with
  | [] => ([], [])
  | f :: rest =>
    let r := processFile f opts token config (fExists f)
      (dirExists (dirnameStr (getOutputPath f opts))) (contentOf f) (respOf f)
      (oidOf f) (wmOf f) singleFile
    let tail := protectLoop rest opts token config fExists dirExists contentOf
      respOf oidOf wmOf singleFile
    ((f, r.1) :: tail.1, r.2 ++ tail.2)

/-- `[...new Set(list)]`: duplicates removed, first occurrence kept. -/
def dedupFirst (l : List String) : List String :=
  l.foldl (fun acc f => if f ∈ acc then acc else acc ++ [f]) []

/-- JavaScript `String.prototype.endsWith` with a plain suffix. -/
def strEndsWith (s suffix : String) : Bool :=
  suffix.data.isSuffixOf s.data

/-- The per-file line printed in `--dry-run` mode:
`file → outputPath`, plus ` + <map path>` when `--source-map` is on and
` + <symbols path>` when `--symbols` is on (custom paths only in single-file
mode).  Chalk colour codes and the leading info glyph are presentation only
and are not modelled. -/
def dryRunFileLine (file : String) (opts : CLIOptions) (nFiles : Nat) : String :=
  let outputPath := getOutputPath file opts
  let base := file ++ " → " ++ outputPath
  let withMap :=
    if opts.sourceMap then
      base ++ " + "
        ++ (if jsTruthyStr opts.sourceMapPath && nFiles == 1 then
              opts.sourceMapPath.getD ""
            else outputPath ++ ".map")
    else base
  if opts.symbols then
    withMap ++ " + "
      ++ (if jsTruthyStr opts.symbolsPath && nFiles == 1 then
            opts.symbolsPath.getD ""
          else outputPath ++ ".symbols.json")
  else withMap

/-- The file list the run operates on: merged glob matches, de-duplicated,
restricted to `.js`/`.mjs` files. -/
def discoveredFiles (allFiles : List String) : List String :=
  (dedupFirst allFiles).filter
    (fun f => strEndsWith f ".js" || strEndsWith f ".mjs")

/-- How a `protect` run ends: an explicit `process.exit(code)`, or the normal
fall-through after the summary (whose process exit code is 0). -/
inductive RunResult where
  | exited (code : Nat)
  | finished (succeeded skipped failed : Nat)
  deriving DecidableEq, Repr

/-- Count the outcomes of the loop. -/
def countOutcomes (outs : List (String × Outcome)) : Nat × Nat × Nat :=
  outs.foldl
    (fun acc p =>
      match p.2 with
      | .success => (acc.1 + 1, acc.2.1, acc.2.2)
      | .skipped _ => (acc.1, acc.2.1 + 1, acc.2.2)
      | .failed _ => (acc.1, acc.2.1, acc.2.2 + 1))
    (0, 0, 0)

/-- The `protect` command after glob expansion: `allFiles` is the merged glob
result (dedup and the `.js`/`.mjs` filter are applied here as in the code),
`config` the loaded configuration object, `tokenValidOnServer` the outcome of
`validateToken`'s HTTP call.  Empty match → exit 0.  Missing token → exit 1.
Failed validation → exit 1 (after the one validation network call).  Invalid
output options → exit 1.  `--dry-run` → print the banner, the list header and
one planned-path line per file, then exit 0.  Otherwise run the loop and
summarize.  Spinner/summary decoration and the configuration-file reads
(reads, never writes) are not modelled in the trace. -/
def protectRun (allFiles : List String) (opts : CLIOptions)
    (envShieldToken envLegacyToken : Option String) (config : JSObj)
    (tokenValidOnServer : Bool) (fExists dirExists : String → Bool)
    (contentOf : String → String) (respOf : String → HTTPResponse)
    (oidOf wmOf : String → String) (cliToken : Option String) :
    RunResult × List Effect :=
  let files := discoveredFiles allFiles
  if files.isEmpty then (.exited 0, [])
  else
    match getToken cliToken envShieldToken envLegacyToken (loadConfigResult config) with
    | none => (.exited 1, [])
    | some token =>
      let vEff : List Effect := [.netValidate token]
      if !tokenValidOnServer then (.exited 1, vEff)
      else if !(validateOutputOptions files.length opts dirExists) then
        (.exited 1, vEff)
      else if opts.dryRun then
        (.exited 0,
          vEff
            ++ [.consoleLine "DRY RUN MODE - No files will be modified",
                .consoleLine "Files that would be protected:"]
            ++ files.map (fun f => .consoleLine (dryRunFileLine f opts files.length)))
      else
        let r := protectLoop files opts token config fExists dirExists contentOf
          respOf oidOf wmOf (files.length == 1)
        let c := countOutcomes r.1
        (.finished c.1 c.2.1 c.2.2, vEff ++ r.2)

/-- Concrete options for the C5 counterexample: only `--output-ext "-p"`. -/
def c5cexOptions : CLIOptions :=
  { output := none, outputDir := none, outputExt := "-p", dryRun := false,
    backup := true, sourceMap := false, symbols := false,
    sourceMapPath := none, symbolsPath := none }

/-- Concrete options for the C5 witness: `--output-dir dist --output-ext "-p"`. -/
def c5witOptions : CLIOptions :=
  { output := none, outputDir := some "dist", outputExt := "-p", dryRun := false,
    backup := true, sourceMap := false, symbols := false,
    sourceMapPath := none, symbolsPath := none }

/-- Concrete options for the C6 counterexample: single-file
`--output a.js.backup` with backup enabled (the default). -/
def c6cexOptions : CLIOptions :=
  { output := some "a.js.backup", outputDir := none, outputExt := "", dryRun := false,
    backup := true, sourceMap := false, symbols := false,
    sourceMapPath := none, symbolsPath := none }

/-- An input content that the watermark guard recognizes. -/
def protectedSample : String :=
  "// _0xBHSHLD_0123abcd_marker\nvar a = 1;"

/-- Concrete options for the C8 scenario: `--dry-run` with defaults. -/
def c8Options : CLIOptions :=
  { output := none, outputDir := none, outputExt := "", dryRun := true,
    backup := true, sourceMap := false, symbols := false,
    sourceMapPath := none, symbolsPath := none }

/-- Concrete configuration object for the C1 counterexample. -/
def c1cexConfig : JSObj := [("ProjectToken", JSVal.str "tok-123")]

/-- Concrete configuration object for the C1 witness. -/
def c1witConfig : JSObj :=
  [("ProjectToken", JSVal.str "tokP"), ("projectToken", JSVal.str "tokq")]

/-- Concrete configuration object for the C4 witness. -/
def c4config : JSObj :=
  [("ProjectToken", JSVal.str "cfgP"), ("projectToken", JSVal.str "cfgq")]

/-- Rebuilding a string from its character data is the identity. -/
theorem string_mk_data (s : String) : String.mk s.data = s := by
  cases s
  rfl

/-- A list is a `isPrefixOf` of itself followed by anything. -/
theorem isPrefixOf_append_self (l t : List Char) : l.isPrefixOf (l ++ t) = true :=
  List.isPrefixOf_iff_prefix.mpr (List.prefix_append l t)

/-- Decompose a successful `isPrefixOf` test. -/
theorem exists_append_of_isPrefixOf {l m : List Char}
    (h : l.isPrefixOf m = true) : ∃ t, m = l ++ t := by
  rcases List.isPrefixOf_iff_prefix.mp h with ⟨t, ht⟩
  exact ⟨t, ht.symm⟩

/-- Replacing the first occurrence of a pattern by itself changes nothing. -/
theorem replaceFirstChars_self (s pat : List Char) :
    replaceFirstChars s pat pat = s := by
  induction s with
  | nil =>
    simp only [replaceFirstChars]
    split
    next h =>
      obtain ⟨t, ht⟩ := exists_append_of_isPrefixOf h
      have hpat : pat = [] := by
        cases pat with
        | nil => rfl
        | cons a b => simp at ht
      simp [hpat]
    next => rfl
  | cons c rest ih =>
    simp only [replaceFirstChars]
    split
    next h =>
      obtain ⟨t, ht⟩ := exists_append_of_isPrefixOf h
      rw [ht, List.drop_left]
    next =>
      rw [ih]

/-- The first-occurrence string replacement with replacement `suffix ++ pat`
is exactly the insertion of `suffix` in front of the first occurrence of
`pat`. -/
theorem replaceFirstChars_insert (s pat suffix : List Char) :
    replaceFirstChars s pat (suffix ++ pat) = specInsertBeforeFirstOcc s pat suffix := by
  induction s with
  | nil =>
    by_cases hp : pat.isPrefixOf ([] : List Char) = true
    · obtain ⟨t, ht⟩ := exists_append_of_isPrefixOf hp
      have hpat : pat = [] := by
        cases pat with
        | nil => rfl
        | cons a b => simp at ht
      subst hpat
      simp [replaceFirstChars, specInsertBeforeFirstOcc, firstOccIdx]
    · simp [replaceFirstChars, specInsertBeforeFirstOcc, firstOccIdx, hp]
  | cons c rest ih =>
    by_cases hp : pat.isPrefixOf (c :: rest) = true
    · obtain ⟨t, ht⟩ := exists_append_of_isPrefixOf hp
      simp only [replaceFirstChars, specInsertBeforeFirstOcc, firstOccIdx, hp,
        if_pos]
      rw [ht, List.drop_left]
      simp
    · simp only [replaceFirstChars, specInsertBeforeFirstOcc, firstOccIdx, hp,
        if_neg, Bool.false_eq_true, not_false_iff]
      cases hfo : firstOccIdx rest pat with
      | none =>
        rw [ih]
        simp [specInsertBeforeFirstOcc, hfo]
      | some i =>
        rw [ih]
        simp [specInsertBeforeFirstOcc, hfo, List.take_succ_cons,
          List.drop_succ_cons]

/-- The position scan of `containsWatermark` is the search over all start
positions. -/
theorem containsWatermark_eq_any (l : List Char) :
    containsWatermark l
      = (List.range (l.length + 1)).any (fun i => watermarkAt (l.drop i)) := by
  induction l with
  | nil => decide
  | cons c rest ih =>
    have h2 : ((fun i => watermarkAt (List.drop i (c :: rest))) ∘ Nat.succ)
        = fun i => watermarkAt (List.drop i rest) := by
      funext i
      simp [Function.comp, List.drop_succ_cons]
    simp only [containsWatermark, List.length_cons,
      List.range_succ_eq_map (rest.length + 1), List.any_cons, List.any_map, h2,
      List.drop_zero]
    rw [ih]

/-- A watermark match anchored after the lead literal: the lead, any 8
lower-case hex characters, then the tail literal and anything after it. -/
theorem watermarkAt_concat (idl tail : List Char) (h8 : idl.length = 8)
    (hhex : idl.all isLowerHexDigit = true) :
    watermarkAt (watermarkLead ++ (idl ++ (watermarkTail ++ tail))) = true := by
  have hlen : watermarkLead.length = 13 := by decide
  unfold watermarkAt
  rw [List.drop_left' hlen, List.take_left' h8, List.drop_left' h8]
  simp [isPrefixOf_append_self, h8, hhex]

/-- A match at the head is a match somewhere. -/
theorem containsWatermark_of_watermarkAt {cs : List Char}
    (h : watermarkAt cs = true) : containsWatermark cs = true := by
  cases cs with
  | nil => exact absurd h (by decide)
  | cons c rest => simp [containsWatermark, h]

/-- Reading the key just written by `objSet` gives the written value. -/
theorem objGet_objSet_self (o : JSObj) (k : String) (v : JSVal) :
    objGet (objSet o k v) k = v := by
  unfold objGet objSet
  rw [List.find?_append]
  have hnone : (o.filter (fun p => p.1 != k)).find? (fun p => p.1 == k) = none := by
    rw [List.find?_eq_none]
    intro x hx
    have := (List.mem_filter.mp hx).2
    simpa using this
  simp [hnone]

/-- Keys other than the written one are unchanged by `objSet`. -/
theorem objGet_objSet_ne (o : JSObj) (k k2 : String) (v : JSVal)
    (h : k ≠ k2) : objGet (objSet o k2 v) k = objGet o k := by
  unfold objGet objSet
  rw [List.find?_append]
  have hfind : (o.filter (fun p => p.1 != k2)).find? (fun p => p.1 == k)
      = o.find? (fun p => p.1 == k) := by
    induction o with
    | nil => rfl
    | cons a rest ih =>
      by_cases ha : a.1 == k
      · have hak : a.1 = k := by simpa using ha
        have ha2 : (a.1 != k2) = true := by
          simp [hak, h]
        simp [List.filter_cons, ha2, List.find?_cons, ha]
      · by_cases ha2 : (a.1 != k2) = true
        · simp [List.filter_cons, ha2, List.find?_cons, ha, ih]
        · simp [List.filter_cons, ha2, List.find?_cons, ha, ih]
  rw [hfind]
  cases hf : o.find? (fun p => p.1 == k) with
  | some p => simp
  | none =>
    have hk2 : (k2 == k) = false := by
      simp [Ne.symm h]
    simp [List.find?_cons, hk2]

/-- A key whose value is a string is serialized by JSON.stringify. -/
theorem hasStringifiedKey_of_str {o : JSObj} {k s : String}
    (h : objGet o k = JSVal.str s) : hasStringifiedKey o k = true := by
  induction o with
  | nil => simp [objGet] at h
  | cons a rest ih =>
    by_cases ha : (a.1 == k) = true
    · have hv : a.2 = JSVal.str s := by
        simp [objGet, List.find?_cons, ha] at h
        exact h
      have hnu : (a.2 != JSVal.undefinedVal) = true := by
        simp [hv]
      unfold hasStringifiedKey
      simp [List.filter_cons, hnu, List.any_cons, ha]
    · have hrest : objGet rest k = JSVal.str s := by
        simpa [objGet, List.find?_cons, ha] using h
      have := ih hrest
      unfold hasStringifiedKey at this ⊢
      by_cases hnu : (a.2 != JSVal.undefinedVal) = true
      · simp [List.filter_cons, hnu, List.any_cons, ha, this]
      · simp [List.filter_cons, hnu, this]

/-- C1 (counterexample): for the configuration file `{"ProjectToken":
"tok-123"}`, the `config` object placed in the protection payload still
contains the key `ProjectToken` (with the token as value) after loadConfig's
merge, so the claim that the payload's config contains neither token field is
false. -/
theorem c1_token_in_payload_cex :
    hasStringifiedKey
      (mkProtectPayload "code" "oid" "tok-123" (loadConfigResult c1cexConfig)).config
      "ProjectToken" = true
    ∧ objGet (mkProtectPayload "code" "oid" "tok-123" (loadConfigResult c1cexConfig)).config
        "ProjectToken" = JSVal.str "tok-123" := by
  exact ⟨by decide, by decide⟩

/-- C1 (amended): loadConfig re-attaches the `ProjectToken` and
`projectToken` fields to the configuration it returns, so whenever the
configuration file carries them the `config` object inside the protection
payload built by callBytehideShieldAPI carries them too (and they are
serialized by JSON.stringify); the token additionally travels in the
payload's separate `projectToken` field. -/
theorem c1_token_fields_persist (cfg : JSObj) (code oid tok sP sq : String)
    (hP : objGet cfg "ProjectToken" = JSVal.str sP)
    (hq : objGet cfg "projectToken" = JSVal.str sq) :
    objGet (mkProtectPayload code oid tok (loadConfigResult cfg)).config
        "ProjectToken" = JSVal.str sP
    ∧ objGet (mkProtectPayload code oid tok (loadConfigResult cfg)).config
        "projectToken" = JSVal.str sq
    ∧ hasStringifiedKey (mkProtectPayload code oid tok (loadConfigResult cfg)).config
        "ProjectToken" = true
    ∧ hasStringifiedKey (mkProtectPayload code oid tok (loadConfigResult cfg)).config
        "projectToken" = true
    ∧ (mkProtectPayload code oid tok (loadConfigResult cfg)).projectToken = tok := by
  have hPT : objGet (loadConfigResult cfg) "ProjectToken" = JSVal.str sP := by
    simp only [loadConfigResult]
    rw [objGet_objSet_ne _ _ _ _ (by decide), objGet_objSet_self]
    exact hP
  have hpt : objGet (loadConfigResult cfg) "projectToken" = JSVal.str sq := by
    simp only [loadConfigResult]
    rw [objGet_objSet_self]
    exact hq
  exact ⟨hPT, hpt, hasStringifiedKey_of_str hPT, hasStringifiedKey_of_str hpt, rfl⟩

/-- C1 (witness): a concrete configuration with both token fields, fed
through the amended theorem. -/
theorem c1_token_fields_persist_witness :
    objGet c1witConfig "ProjectToken" = JSVal.str "tokP"
    ∧ hasStringifiedKey
        (mkProtectPayload "c" "i" "t" (loadConfigResult c1witConfig)).config
        "ProjectToken" = true := by
  refine ⟨by decide, ?_⟩
  exact (c1_token_fields_persist c1witConfig "c" "i" "t" "tokP" "tokq"
    (by decide) (by decide)).2.2.1

/-- C2 (counterexample): a content that merely *contains* the watermark
pattern (not at position 0) is reported as already protected, so "starts
with" does not match the code's unanchored regex test. -/
theorem c2_startswith_cex :
    isAlreadyObfuscated "x// _0xBHSHLD_00000000_marker" = true
    ∧ startsWithWatermark "x// _0xBHSHLD_00000000_marker" = false := by
  exact ⟨by decide, by decide⟩

/-- C2 (amended): isAlreadyObfuscated returns true exactly when the content
*contains* the watermark pattern (the literal marker lead, an 8 lower-case
hex digit identifier, then the `_marker` tail) at some position. -/
theorem c2_guard_detects_contained_watermark (content : String) :
    isAlreadyObfuscated content = containsWatermarkAnywhere content := by
  unfold isAlreadyObfuscated containsWatermarkAnywhere
  exact containsWatermark_eq_any content.data

/-- C3: every successful remote protection call resolves with exactly one
watermark comment line, a line break, then the service-returned code, and
that output satisfies the already-protected guard. -/
theorem c3_success_watermark_roundtrip (uniqueId out : String)
    (sm sy : Option String) (hlen : uniqueId.data.length = 8)
    (hhex : uniqueId.data.all isLowerHexDigit = true)
    (hout : out.data.isEmpty = false) :
    ∃ r : ObfResult,
      callBytehideShieldAPI (HTTPResponse.ok (some out) sm sy) uniqueId = Except.ok r
      ∧ r.output = generateWatermark uniqueId ++ "\n" ++ out
      ∧ isAlreadyObfuscated r.output = true := by
  refine ⟨{ output := generateWatermark uniqueId ++ "\n" ++ out,
            sourceMap := sm, symbols := sy }, ?_, rfl, ?_⟩
  · simp [callBytehideShieldAPI, jsTruthyStr, hout]
  · unfold isAlreadyObfuscated
    apply containsWatermark_of_watermarkAt
    have hdata : (generateWatermark uniqueId ++ "\n" ++ out).data
        = watermarkLead ++ (uniqueId.data ++ (watermarkTail ++ ("\n".data ++ out.data))) := by
      simp [generateWatermark, String.data_append, watermarkLead, watermarkTail,
        List.append_assoc]
    rw [hdata]
    exact watermarkAt_concat uniqueId.data _ hlen hhex

/-- C3 (witness): a concrete identifier and output. -/
theorem c3_success_watermark_roundtrip_witness :
    ("0a1b2c3d" : String).data.length = 8
    ∧ ∃ r : ObfResult,
        callBytehideShieldAPI (HTTPResponse.ok (some "var x = 1;") none none) "0a1b2c3d"
          = Except.ok r
        ∧ r.output = generateWatermark "0a1b2c3d" ++ "\n" ++ "var x = 1;"
        ∧ isAlreadyObfuscated r.output = true := by
  refine ⟨by decide, ?_⟩
  exact c3_success_watermark_roundtrip "0a1b2c3d" "var x = 1;" none none
    (by decide) (by decide) (by decide)

/-- C4: getToken returns the first non-empty value in the order CLI flag,
BYTEHIDE_SHIELD_TOKEN, BYTEHIDE_TOKEN, config ProjectToken, config
projectToken; in particular a truthy CLI value always wins. -/
theorem c4_token_priority (cliToken envShieldToken envLegacyToken : Option String)
    (config : JSObj)
    (hP : tokenFieldStringLike (objGet config "ProjectToken") = true)
    (hq : tokenFieldStringLike (objGet config "projectToken") = true) :
    getToken cliToken envShieldToken envLegacyToken config
      = firstNonEmpty [cliToken, envShieldToken, envLegacyToken,
          jsValToStrOpt (objGet config "ProjectToken"),
          jsValToStrOpt (objGet config "projectToken")]
    ∧ (jsTruthyStr cliToken = true →
        getToken cliToken envShieldToken envLegacyToken config = cliToken) := by
  constructor
  · cases h1 : objGet config "ProjectToken" <;>
      cases h2 : objGet config "projectToken" <;>
      simp_all [getToken, extractTokenFromConfig, firstNonEmpty, jsTruthyVal,
        jsValToStrOpt, jsTruthyStr, tokenFieldStringLike]
  · intro h
    simp [getToken, h]

/-- C4 (witness): with all five sources populated, the CLI value is chosen. -/
theorem c4_token_priority_witness :
    jsTruthyStr (some "cliTok") = true
    ∧ getToken (some "cliTok") (some "envA") (some "envB") c4config = some "cliTok" := by
  refine ⟨by decide, ?_⟩
  exact (c4_token_priority (some "cliTok") (some "envA") (some "envB") c4config
    (by decide) (by decide)).2 (by decide)

/-- C5 (counterexample): with `--output-ext "-p"` and input `a.js.b.js`, the
code splices the suffix before the *first* occurrence of the extension
substring (`a-p.js.b.js`), not before the original (final) extension
(`a.js.b-p.js`), refuting the claim's path formula. -/
theorem c5_first_occurrence_cex :
    getOutputPath "a.js.b.js" c5cexOptions = "a-p.js.b.js"
    ∧ specInsertBeforeLastExt "a.js.b.js" "-p" = "a.js.b-p.js"
    ∧ ("a-p.js.b.js" : String) ≠ "a.js.b-p.js" := by
  exact ⟨by decide, by decide, by decide⟩

/-- C5 (amended): without a single-file output override, the planned code
path inserts the configured suffix before the *first occurrence* of the
extension substring — inside the basename joined onto the configured output
directory when one is set, and inside the whole input path otherwise. -/
theorem c5_output_path_first_occurrence (inputFile : String) (opts : CLIOptions)
    (hout : jsTruthyStr opts.output = false) :
    (jsTruthyStr opts.outputDir = true →
      getOutputPath inputFile opts
        = pathJoin (opts.outputDir.getD "")
            (String.mk (specInsertBeforeFirstOcc (afterLastSlash inputFile.data)
              (extnameChars inputFile.data) opts.outputExt.data)))
    ∧ (jsTruthyStr opts.outputDir = false →
      getOutputPath inputFile opts
        = String.mk (specInsertBeforeFirstOcc inputFile.data
            (extnameChars inputFile.data) opts.outputExt.data)) := by
  constructor <;> intro hdir <;>
    simp [getOutputPath, hout, hdir, replaceFirstChars_insert]

/-- C5 (witness): `--output-dir dist --output-ext "-p"` on `src/a.js` plans
`dist/a-p.js`. -/
theorem c5_output_path_first_occurrence_witness :
    jsTruthyStr c5witOptions.output = false
    ∧ getOutputPath "src/a.js" c5witOptions = "dist/a-p.js" := by
  refine ⟨by decide, ?_⟩
  have h := (c5_output_path_first_occurrence "src/a.js" c5witOptions (by decide)).1
    (by decide)
  rw [h]
  decide

/-- C6 (counterexample): with the single-file override `--output a.js.backup`
and backup enabled, an already-protected input is recorded as Skipped, yet
the pre-check backup copy targets exactly the planned output path, so the run
does write the planned output file. -/
theorem c6_backup_overwrites_planned_cex :
    (processFile "a.js" c6cexOptions "tok" [] true true protectedSample
      HTTPResponse.networkFailure "oid0" "wm0" true).1
      = Outcome.skipped "Already protected"
    ∧ ((processFile "a.js" c6cexOptions "tok" [] true true protectedSample
        HTTPResponse.networkFailure "oid0" "wm0" true).2.any
          (fun e => writesPath e (getOutputPath "a.js" c6cexOptions))) = true := by
  exact ⟨by decide, by decide⟩

/-- C6 (amended): an existing input whose content matches the watermark
pattern is recorded as Skipped with reason "Already protected" (never
Failed), no remote protection call is made for it, and — unless backup is on
and the planned output path is exactly the input path plus `.backup`, in
which case the backup copy itself is that write — nothing writes its planned
output file. -/
theorem c6_already_protected_skipped (file : String) (opts : CLIOptions)
    (token : String) (config : JSObj) (outputDirExistsB : Bool) (content : String)
    (resp : HTTPResponse) (oid wm : String) (single : Bool)
    (hprot : isAlreadyObfuscated content = true)
    (hnoalias : opts.backup = true → file ++ ".backup" ≠ getOutputPath file opts) :
    (processFile file opts token config true outputDirExistsB content resp oid wm
        single).1 = Outcome.skipped "Already protected"
    ∧ ((processFile file opts token config true outputDirExistsB content resp oid wm
        single).2.any isProtectCall) = false
    ∧ ((processFile file opts token config true outputDirExistsB content resp oid wm
        single).2.any (fun e => writesPath e (getOutputPath file opts))) = false := by
  have h1 :
      obfuscateFile
        ({ filePath := file, token := token, config := config,
           outputPath := some (getOutputPath file opts), outputExtension := "",
           generateSourceMap := opts.sourceMap, saveSymbols := opts.symbols,
           sourceMapPath := if single then opts.sourceMapPath else none,
           symbolsPath := if single then opts.symbolsPath else none } : ObfArgs)
        content resp oid wm
      = (.error "The file has already been protected.", [.fsRead file]) := by
    unfold obfuscateFile
    simp [hprot]
  have hpf : processFile file opts token config true outputDirExistsB content resp
      oid wm single
      = (Outcome.skipped "Already protected",
         (if outputDirExistsB then []
          else [Effect.fsMkdir (dirnameStr (getOutputPath file opts))])
         ++ ((if opts.backup then [Effect.fsCopy file (file ++ ".backup")] else [])
         ++ [Effect.fsRead file])) := by
    simp only [processFile]
    rw [h1]
    simp
  rw [hpf]
  refine ⟨rfl, ?_, ?_⟩
  · cases outputDirExistsB <;> cases opts.backup <;>
      simp [isProtectCall, List.any_append, List.any_cons, List.any_nil]
  · cases outputDirExistsB <;> cases hb : opts.backup <;>
      simp [writesPath, List.any_append, List.any_cons, List.any_nil] <;>
      exact fun hc => hnoalias hb (by simpa using hc)

/-- C6 (witness): default options on an already-protected file. -/
theorem c6_already_protected_skipped_witness :
    isAlreadyObfuscated protectedSample = true
    ∧ (processFile "a.js" defaultProtectOptions "tok" [] true true protectedSample
        HTTPResponse.networkFailure "oid0" "wm0" true).1
      = Outcome.skipped "Already protected" := by
  refine ⟨by decide, ?_⟩
  exact (c6_already_protected_skipped "a.js" defaultProtectOptions "tok" [] true
    protectedSample HTTPResponse.networkFailure "oid0" "wm0" true (by decide)
    (fun _ => by decide)).1

/-- C7 (counterexample): an HTTP 429 response whose JSON body carries an
`error` field is recorded as Failed with the message built from that field,
not with the friendly rate-limit message the claim fixes for every 429. -/
theorem c7_429_json_error_cex :
    (protectLoop ["a.js"] defaultProtectOptions "tok" [] (fun _ => true)
      (fun _ => true) (fun _ => "var a;")
      (fun _ => HTTPResponse.httpError 429 (some "Too many requests") "undefined")
      (fun _ => "oid") (fun _ => "wm") true).1
      = [("a.js", Outcome.failed "Protection error: Too many requests")]
    ∧ ("Protection error: Too many requests" : String)
      ≠ "Protection skipped to avoid performance issues in final build. Reducing file size..." := by
  exact ⟨by decide, by decide⟩

/-- C7 (amended): when the 429 response body is not JSON with a truthy
`error` field, the file's outcome is Failed with the friendly rate-limit
message; and the loop always continues, producing one outcome per file
whatever the per-file responses are. -/
theorem c7_429_friendly_failed (file : String) (opts : CLIOptions) (token : String)
    (config : JSObj) (outputDirExistsB : Bool) (content msgField oid wm : String)
    (single : Bool) (hnot : isAlreadyObfuscated content = false) :
    (processFile file opts token config true outputDirExistsB content
        (HTTPResponse.httpError 429 none msgField) oid wm single).1
      = Outcome.failed
          "Protection skipped to avoid performance issues in final build. Reducing file size..."
    ∧ ∀ (files : List String) (fE dE : String → Bool) (cO : String → String)
        (rO : String → HTTPResponse) (oO wO : String → String) (sf : Bool),
        (protectLoop files opts token config fE dE cO rO oO wO sf).1.length
          = files.length := by
  constructor
  · have h1 : callBytehideShieldAPI (HTTPResponse.httpError 429 none msgField) wm
        = Except.error
            "Protection skipped to avoid performance issues in final build. Reducing file size..." :=
      rfl
    have h2 :
        obfuscateFile
          ({ filePath := file, token := token, config := config,
             outputPath := some (getOutputPath file opts), outputExtension := "",
             generateSourceMap := opts.sourceMap, saveSymbols := opts.symbols,
             sourceMapPath := if single then opts.sourceMapPath else none,
             symbolsPath := if single then opts.symbolsPath else none } : ObfArgs)
          content (HTTPResponse.httpError 429 none msgField) oid wm
        = (.error
            "Protection skipped to avoid performance issues in final build. Reducing file size...",
           [.fsRead file, .netProtect (mkProtectPayload content oid token config)]) := by
      unfold obfuscateFile
      rw [h1]
      simp [hnot]
    have hmsg :
        (("Protection skipped to avoid performance issues in final build. Reducing file size..." : String)
          == "The file has already been protected.") = false := by decide
    simp only [processFile]
    rw [h2]
    simp [hmsg]
  · intro files fE dE cO rO oO wO sf
    induction files with
    | nil => rfl
    | cons f rest ih => simp [protectLoop, ih]

/-- C7 (witness): a plain 429 failure on a fresh file. -/
theorem c7_429_friendly_failed_witness :
    isAlreadyObfuscated "var a = 1;" = false
    ∧ (processFile "a.js" defaultProtectOptions "tok" [] true true "var a = 1;"
        (HTTPResponse.httpError 429 none "undefined") "oid" "wm" true).1
      = Outcome.failed
          "Protection skipped to avoid performance issues in final build. Reducing file size..." := by
  refine ⟨by decide, ?_⟩
  exact (c7_429_friendly_failed "a.js" defaultProtectOptions "tok" [] true
    "var a = 1;" "undefined" "oid" "wm" true (by decide)).1

/-- Filtering a list of console lines by a predicate false on console lines
gives nothing. -/
theorem filter_map_consoleLine_false (p : Effect → Bool) (g : String → String)
    (hp : ∀ s, p (Effect.consoleLine s) = false) (l : List String) :
    (l.map (fun f => Effect.consoleLine (g f))).filter p = [] := by
  induction l with
  | nil => rfl
  | cons a t ih => simp [List.filter_cons, hp, ih]

/-- Filtering a list of console lines by a predicate true on console lines
keeps everything. -/
theorem filter_map_consoleLine_true (p : Effect → Bool) (g : String → String)
    (hp : ∀ s, p (Effect.consoleLine s) = true) (l : List String) :
    (l.map (fun f => Effect.consoleLine (g f))).filter p
      = l.map (fun f => Effect.consoleLine (g f)) := by
  induction l with
  | nil => rfl
  | cons a t ih => simp [List.filter_cons, hp, ih]

/-- C8 (counterexample): a dry run over two matched files still performs one
network call — the token validation that precedes the dry-run branch — so
"zero network calls" fails even though the run exits 0. -/
theorem c8_dry_run_network_cex :
    (protectRun ["a.js", "b.js"] c8Options none none [] true (fun _ => true)
      (fun _ => true) (fun _ => "x") (fun _ => HTTPResponse.networkFailure)
      (fun _ => "o") (fun _ => "w") (some "cli-tok")).1 = RunResult.exited 0
    ∧ ((protectRun ["a.js", "b.js"] c8Options none none [] true (fun _ => true)
        (fun _ => true) (fun _ => "x") (fun _ => HTTPResponse.networkFailure)
        (fun _ => "o") (fun _ => "w") (some "cli-tok")).2.filter
          isNetworkEffect).length = 1 := by
  exact ⟨by decide, by decide⟩

/-- C8 (amended): with `--dry-run`, a resolvable token that validates, and
valid output options, the run prints one planned-output-path line per
discovered file (after the banner and the list header), performs zero
filesystem writes and zero remote protection calls, exits with code 0 — but
it does perform exactly one network call, the token validation. -/
theorem c8_dry_run_no_writes_one_validate (allFiles : List String)
    (opts : CLIOptions) (e1 e2 cliToken : Option String) (config : JSObj)
    (fE dE : String → Bool) (cO : String → String) (rO : String → HTTPResponse)
    (oO wO : String → String) (token : String)
    (hdry : opts.dryRun = true)
    (hne : (discoveredFiles allFiles).isEmpty = false)
    (htok : getToken cliToken e1 e2 (loadConfigResult config) = some token)
    (hvalid : validateOutputOptions (discoveredFiles allFiles).length opts dE = true) :
    (protectRun allFiles opts e1 e2 config true fE dE cO rO oO wO cliToken).1
      = RunResult.exited 0
    ∧ ((protectRun allFiles opts e1 e2 config true fE dE cO rO oO wO cliToken).2.filter
        isWriteEffect) = []
    ∧ ((protectRun allFiles opts e1 e2 config true fE dE cO rO oO wO cliToken).2.filter
        isNetworkEffect) = [Effect.netValidate token]
    ∧ ((protectRun allFiles opts e1 e2 config true fE dE cO rO oO wO cliToken).2.filter
        isConsoleEffect)
        = Effect.consoleLine "DRY RUN MODE - No files will be modified"
          :: Effect.consoleLine "Files that would be protected:"
          :: (discoveredFiles allFiles).map
              (fun f => Effect.consoleLine
                (dryRunFileLine f opts (discoveredFiles allFiles).length))
    ∧ ((protectRun allFiles opts e1 e2 config true fE dE cO rO oO wO cliToken).2.filter
        isConsoleEffect).length = (discoveredFiles allFiles).length + 2 := by
  have hrun : protectRun allFiles opts e1 e2 config true fE dE cO rO oO wO cliToken
      = (RunResult.exited 0,
         Effect.netValidate token
           :: Effect.consoleLine "DRY RUN MODE - No files will be modified"
           :: Effect.consoleLine "Files that would be protected:"
           :: (discoveredFiles allFiles).map
               (fun f => Effect.consoleLine
                 (dryRunFileLine f opts (discoveredFiles allFiles).length))) := by
    simp only [protectRun]
    rw [htok]
    simp [hne, hvalid, hdry]
  rw [hrun]
  have hW := filter_map_consoleLine_false isWriteEffect
    (fun f => dryRunFileLine f opts (discoveredFiles allFiles).length)
    (fun s => rfl) (discoveredFiles allFiles)
  have hN := filter_map_consoleLine_false isNetworkEffect
    (fun f => dryRunFileLine f opts (discoveredFiles allFiles).length)
    (fun s => rfl) (discoveredFiles allFiles)
  have hC := filter_map_consoleLine_true isConsoleEffect
    (fun f => dryRunFileLine f opts (discoveredFiles allFiles).length)
    (fun s => rfl) (discoveredFiles allFiles)
  refine ⟨rfl, ?_, ?_, ?_, ?_⟩
  · simp [List.filter_cons, isWriteEffect, hW]
  · simp [List.filter_cons, isNetworkEffect, hN]
  · simp [List.filter_cons, isConsoleEffect, hC]
  · simp [List.filter_cons, isConsoleEffect, hC]

/-- C8 (witness): a concrete dry run over two files exits 0. -/
theorem c8_dry_run_no_writes_one_validate_witness :
    c8Options.dryRun = true
    ∧ (protectRun ["a.js", "b.js"] c8Options none none [] true (fun _ => true)
        (fun _ => true) (fun _ => "x") (fun _ => HTTPResponse.networkFailure)
        (fun _ => "o") (fun _ => "w") (some "cli-tok")).2.filter isWriteEffect
      = [] := by
  refine ⟨by decide, ?_⟩
  exact (c8_dry_run_no_writes_one_validate ["a.js", "b.js"] c8Options none none
    (some "cli-tok") [] (fun _ => true) (fun _ => true) (fun _ => "x")
    (fun _ => HTTPResponse.networkFailure) (fun _ => "o") (fun _ => "w")
    "cli-tok" (by decide) (by decide) (by decide) (by decide)).2.1

/-- C9: with the commander defaults (no `--output`, no `--output-dir`, empty
`--output-ext`), the planned output path is the input path itself, and a
successful protection overwrites the original file in place with the
BOM-prefixed watermarked content; the `.backup` copy (on by default) is the
only preserved original. -/
theorem c9_default_overwrites_in_place (file token : String) (config : JSObj)
    (outputDirExistsB : Bool) (content out : String) (sm sy : Option String)
    (oid wm : String) (single : Bool)
    (hfile : file.data.isEmpty = false)
    (hnot : isAlreadyObfuscated content = false)
    (hout : out.data.isEmpty = false) :
    getOutputPath file defaultProtectOptions = file
    ∧ (processFile file defaultProtectOptions token config true outputDirExistsB
        content (HTTPResponse.ok (some out) sm sy) oid wm single).1
      = Outcome.success
    ∧ Effect.fsWrite file (FileBytes.withBOM (generateWatermark wm ++ "\n" ++ out))
        ∈ (processFile file defaultProtectOptions token config true outputDirExistsB
            content (HTTPResponse.ok (some out) sm sy) oid wm single).2
    ∧ Effect.fsCopy file (file ++ ".backup")
        ∈ (processFile file defaultProtectOptions token config true outputDirExistsB
            content (HTTPResponse.ok (some out) sm sy) oid wm single).2 := by
  have hplan : getOutputPath file defaultProtectOptions = file := by
    simp only [getOutputPath, defaultProtectOptions, jsTruthyStr]
    simp [replaceFirstChars_self, string_mk_data]
  have hcall : callBytehideShieldAPI (HTTPResponse.ok (some out) sm sy) wm
      = Except.ok { output := generateWatermark wm ++ "\n" ++ out,
                    sourceMap := sm, symbols := sy } := by
    simp [callBytehideShieldAPI, jsTruthyStr, hout]
  have hobf :
      obfuscateFile
        ({ filePath := file, token := token, config := config,
           outputPath := some (getOutputPath file defaultProtectOptions),
           outputExtension := "",
           generateSourceMap := defaultProtectOptions.sourceMap,
           saveSymbols := defaultProtectOptions.symbols,
           sourceMapPath := if single then defaultProtectOptions.sourceMapPath else none,
           symbolsPath := if single then defaultProtectOptions.symbolsPath else none } :
          ObfArgs)
        content (HTTPResponse.ok (some out) sm sy) oid wm
      = (.ok file,
         [.fsRead file, .netProtect (mkProtectPayload content oid token config),
          .fsWrite file (FileBytes.withBOM (generateWatermark wm ++ "\n" ++ out))]) := by
    unfold obfuscateFile
    rw [hcall, hplan]
    simp [hnot, jsTruthyStr, hfile, defaultProtectOptions, addBOM]
  have hpf : processFile file defaultProtectOptions token config true
      outputDirExistsB content (HTTPResponse.ok (some out) sm sy) oid wm single
      = (Outcome.success,
         (if outputDirExistsB then []
          else [Effect.fsMkdir (dirnameStr (getOutputPath file defaultProtectOptions))])
         ++ ([Effect.fsCopy file (file ++ ".backup")]
         ++ [Effect.fsRead file,
             Effect.netProtect (mkProtectPayload content oid token config),
             Effect.fsWrite file
               (FileBytes.withBOM (generateWatermark wm ++ "\n" ++ out))])) := by
    simp only [processFile]
    rw [hobf]
    simp [defaultProtectOptions]
  rw [hpf]
  refine ⟨hplan, rfl, ?_, ?_⟩ <;> cases outputDirExistsB <;> simp

/-- C9 (witness): concrete in-place overwrite with defaults. -/
theorem c9_default_overwrites_in_place_witness :
    ("app.js" : String).data.isEmpty = false
    ∧ getOutputPath "app.js" defaultProtectOptions = "app.js"
    ∧ (processFile "app.js" defaultProtectOptions "tok" [] true true "var a;"
        (HTTPResponse.ok (some "OBF();") none none) "oid" "wm" true).1
      = Outcome.success := by
  refine ⟨by decide, ?_, ?_⟩
  · exact (c9_default_overwrites_in_place "app.js" "tok" [] true "var a;" "OBF();"
      none none "oid" "wm" true (by decide) (by decide) (by decide)).1
  · exact (c9_default_overwrites_in_place "app.js" "tok" [] true "var a;" "OBF();"
      none none "oid" "wm" true (by decide) (by decide) (by decide)).2.1

/-- C10: when backup is enabled, the effect trace of an existing input file
decomposes as some directory bookkeeping, then the `.backup` copy, then the
rest — with no file read and no remote protection call before the copy — so
the backup is written before the already-protected check and before the
remote call, whatever the file's eventual outcome (Success, Skipped or
Failed). -/
theorem c10_backup_before_check_and_call (file : String) (opts : CLIOptions)
    (token : String) (config : JSObj) (outputDirExistsB : Bool) (content : String)
    (resp : HTTPResponse) (oid wm : String) (single : Bool)
    (hb : opts.backup = true) :
    ∃ pre rest,
      (processFile file opts token config true outputDirExistsB content resp oid wm
          single).2
        = pre ++ Effect.fsCopy file (file ++ ".backup") :: rest
      ∧ ∀ e ∈ pre, isProtectCall e = false ∧ isReadEffect e = false := by
  have hpf : (processFile file opts token config true outputDirExistsB content resp
      oid wm single).2
      = (if outputDirExistsB then []
         else [Effect.fsMkdir (dirnameStr (getOutputPath file opts))])
        ++ Effect.fsCopy file (file ++ ".backup")
        :: (obfuscateFile
            ({ filePath := file, token := token, config := config,
               outputPath := some (getOutputPath file opts), outputExtension := "",
               generateSourceMap := opts.sourceMap, saveSymbols := opts.symbols,
               sourceMapPath := if single then opts.sourceMapPath else none,
               symbolsPath := if single then opts.symbolsPath else none } : ObfArgs)
            content resp oid wm).2 := by
    simp only [processFile, hb]
    rcases hob : obfuscateFile
        ({ filePath := file, token := token, config := config,
           outputPath := some (getOutputPath file opts), outputExtension := "",
           generateSourceMap := opts.sourceMap, saveSymbols := opts.symbols,
           sourceMapPath := if single then opts.sourceMapPath else none,
           symbolsPath := if single then opts.symbolsPath else none } : ObfArgs)
        content resp oid wm with ⟨res, effs⟩
    cases res with
    | ok v => simp
    | error msg =>
      by_cases hm : (msg == "The file has already been protected.") = true <;>
        simp [hm]
  refine ⟨_, _, hpf, ?_⟩
  intro e he
  cases outputDirExistsB with
  | true => simp at he
  | false =>
    simp at he
    subst he
    exact ⟨rfl, rfl⟩

/-- C10 (witness): with default options an already-protected (hence Skipped)
existing file still gets its backup copy first. -/
theorem c10_backup_before_check_and_call_witness :
    defaultProtectOptions.backup = true
    ∧ ∃ pre rest,
        (processFile "a.js" defaultProtectOptions "tok" [] true true
            protectedSample HTTPResponse.networkFailure "oid" "wm" true).2
          = pre ++ Effect.fsCopy "a.js" ("a.js" ++ ".backup") :: rest
        ∧ ∀ e ∈ pre, isProtectCall e = false ∧ isReadEffect e = false := by
  refine ⟨by decide, ?_⟩
  exact c10_backup_before_check_and_call "a.js" defaultProtectOptions "tok" [] true
    protectedSample HTTPResponse.networkFailure "oid" "wm" true (by decide)
